import Mathlib

/-
A formal model of the hecto text editor core: the `Row` and `Document`
text-buffer structures (src/row.rs, src/document.rs) and the `Editor`
cursor/keypress state machine (src/editor.rs).

Modelling conventions:
- A row's text is a list of grapheme clusters; each cluster is modelled as
  one `Char`.  All indices in the source are grapheme-cluster indices, and
  every mutation rebuilds the string from `graphemes(true)` take/drop
  slices, which correspond to `List.take`/`List.drop` here.  The cached
  `len` field of `Row` is kept explicitly, and `update_len` recomputes it,
  exactly as in the source.
- `usize` arithmetic: Rust's `saturating_sub` on usize is `Nat` subtraction;
  `saturating_add` below `usize::MAX` is `Nat` addition.
- File-system and terminal I/O are external collaborators.  `Document.open`
  is modelled on the file's content (the success path of `read_to_string`);
  `Document.save` is split into its state change and the byte content it
  writes.  The blocking save-as prompt's outcome is passed to the keypress
  handler as an explicit `Option String` argument.
-/

/-- `Position` (src/editor.rs): cursor / offset coordinates. -/
structure Position where
  x : Nat
  y : Nat
deriving DecidableEq

/-- `Row` (src/row.rs): a line of text with its cached grapheme count. -/
structure Row where
  string : List Char
  len : Nat
deriving DecidableEq

/-- `Row::update_len`: recompute the cached grapheme count. -/
def Row.update_len (r : Row) : Row :=
  { r with len := r.string.length }

/-- `Row::from(&str)`: build a row from text, computing its length. -/
def Row.fromStr (s : List Char) : Row :=
  Row.update_len { string := s, len := 0 }

/-- `Row::default()` (derived): empty string, length 0. -/
def Row.default : Row :=
  { string := [], len := 0 }

/-- `Row::insert` (src/row.rs lines 58-71). -/
def Row.insert (r : Row) (at_ : Nat) (c : Char) : Row :=
  if at_ ≥ r.len then
    Row.update_len { r with string := r.string ++ [c] }
  else
    let result := r.string.take at_
    let reminder := r.string.drop at_
    Row.update_len { r with string := result ++ [c] ++ reminder }

/-- `Row::delete` (src/row.rs lines 73-82). -/
def Row.delete (r : Row) (at_ : Nat) : Row :=
  if at_ ≥ r.len then
    r
  else
    let result := r.string.take at_
    let remainder := r.string.drop (at_ + 1)
    Row.update_len { r with string := result ++ remainder }

/-- `Row::append` (src/row.rs lines 84-87). -/
def Row.append (r new : Row) : Row :=
  Row.update_len { r with string := r.string ++ new.string }

/-- `Row::split` (src/row.rs lines 92-98): the pair is (truncated self,
returned new row). -/
def Row.split (r : Row) (at_ : Nat) : Row × Row :=
  let beginning := r.string.take at_
  let remainder := r.string.drop at_
  (Row.update_len { r with string := beginning }, Row.fromStr remainder)

/-- `str::lines` on one `split_inclusive('\n')` segment: strip a trailing
newline, then a trailing carriage return (only when the newline was there). -/
def lineMap (l : List Char) : List Char :=
  if l.getLast? = some '\n' then
    let l2 := l.dropLast
    if l2.getLast? = some '\r' then l2.dropLast else l2
  else l

/-- `str::split_inclusive('\n')`: segments of the input, each ending with a
newline except possibly the last; empty input gives no segments. -/
def splitInclusiveNL : List Char → List (List Char)
  | [] => []
  | c :: rest =>
    if c = '\n' then
      [c] :: splitInclusiveNL rest
    else
      match splitInclusiveNL rest with
      | [] => [[c]]
      | seg :: segs => (c :: seg) :: segs

/-- `str::lines`: split inclusively on newlines, then strip terminators. -/
def linesOf (s : List Char) : List (List Char) :=
  (splitInclusiveNL s).map lineMap

/-- `Document` (src/document.rs). -/
structure Document where
  rows : List Row
  filename : Option String
  is_dirty : Bool
deriving DecidableEq

/-- `Document::default()` (derived). -/
def Document.default : Document :=
  { rows := [], filename := none, is_dirty := false }

/-- `Document::len`. -/
def Document.len (d : Document) : Nat :=
  d.rows.length

/-- `Document::row`. -/
def Document.row (d : Document) (index : Nat) : Option Row :=
  d.rows[index]?

/-- `Document::is_empty`. -/
def Document.is_empty (d : Document) : Bool :=
  d.rows.isEmpty

/-- `Document::open` (src/document.rs lines 17-28) on the success path of
`read_to_string`, as a function of the file's content: one `Row` per line
of `content.lines()`, dirty cleared, filename recorded. -/
def Document.openFrom (filename : String) (content : List Char) : Document :=
  { rows := (linesOf content).map Row.fromStr
    filename := some filename
    is_dirty := false }

/-- `Document::insert_newline` (src/document.rs lines 72-81).  The
`get_mut(at.y).unwrap()` is modelled by `getD`; the guard in `insert`
makes the index in range whenever this is reached. -/
def Document.insert_newline (d : Document) (at_ : Position) : Document :=
  if at_.y = d.len then
    { d with rows := d.rows ++ [Row.default] }
  else
    let split := (d.rows[at_.y]?.getD Row.default).split at_.x
    { d with rows := List.insertIdx (at_.y + 1) split.2 (d.rows.set at_.y split.1) }

/-- `Document::insert` (src/document.rs lines 48-68). -/
def Document.insert (d : Document) (at_ : Position) (c : Char) : Document :=
  if at_.y > d.len then
    d
  else
    let d := { d with is_dirty := true }
    if c = '\n' then
      d.insert_newline at_
    else if at_.y = d.len then
      { d with rows := d.rows ++ [Row.default.insert 0 c] }
    else
      { d with rows := d.rows.set at_.y ((d.rows[at_.y]?.getD Row.default).insert at_.x c) }

/-- `Document::is_not_last_row` (src/document.rs lines 101-103). -/
def Document.is_not_last_row (d : Document) (at_ : Position) : Prop :=
  at_.y < d.len - 1

instance (d : Document) (at_ : Position) : Decidable (d.is_not_last_row at_) :=
  inferInstanceAs (Decidable (_ < _))

/-- `Document::delete` (src/document.rs lines 85-99).  `Vec::remove(at.y+1)`
is `eraseIdx (at.y+1)`; the subsequent in-place append to row `at.y` is a
`set`. -/
def Document.delete (d : Document) (at_ : Position) : Document :=
  if at_.y ≥ d.len then
    d
  else
    let d := { d with is_dirty := true }
    let this_row := d.rows[at_.y]?.getD Row.default
    if at_.x = this_row.len ∧ d.is_not_last_row at_ then
      let next_row := d.rows[at_.y + 1]?.getD Row.default
      { d with rows := (d.rows.eraseIdx (at_.y + 1)).set at_.y (this_row.append next_row) }
    else
      { d with rows := d.rows.set at_.y (this_row.delete at_.x) }

/-- The bytes `Document::save` (src/document.rs lines 108-118) writes: each
row's text followed by one newline. -/
def Document.saveContent (d : Document) : List Char :=
  (d.rows.map (fun r => r.string ++ ['\n'])).flatten

/-- The state change of `Document::save`: with a filename the write succeeds
and dirty is cleared; with no filename nothing happens. -/
def Document.save (d : Document) : Document :=
  match d.filename with
  | some _ => { d with is_dirty := false }
  | none => d

/-- `QUIT_TIMES` (src/editor.rs line 15). -/
def QUIT_TIMES : Nat := 3

/-- The `termion::event::Key` variants the editor dispatches on; `other`
stands for every remaining variant, all handled by the wildcard arm. -/
inductive Key where
  | ctrl (c : Char)
  | char (c : Char)
  | delete
  | backspace
  | up
  | down
  | left
  | right
  | pageUp
  | pageDown
  | home
  | end_
  | esc
  | other
deriving DecidableEq

/-- `Editor` (src/editor.rs).  The terminal collaborator is represented by
its `size()` interface; the status message by its text (its timestamp only
drives display expiry). -/
structure Editor where
  should_quit : Bool
  terminal_width : Nat
  terminal_height : Nat
  document : Document
  offset : Position
  cursor_position : Position
  status_message : String
  quit_times : Nat
deriving DecidableEq

/-- The warning set by the quit arm of `process_keypress`, with the counter
value interpolated. -/
def warnMsg (n : Nat) : String :=
  "WARN: File has unsaved changes! Press Ctrl-Q " ++ toString n ++ " more times to quit."

/-- The repeated `if let Some(row) = document.row(y) { row.len() } else { 0 }`
pattern of `move_cursor`. -/
def Document.rowLen (d : Document) (y : Nat) : Nat :=
  match d.row y with
  | some row => row.len
  | none => 0

/-- The key dispatch of `Editor::move_cursor` (src/editor.rs lines 242-295):
the new `(x, y)` before the final clamp. -/
def Editor.move_xy (e : Editor) (key : Key) : Nat × Nat :=
  let x := e.cursor_position.x
  let y := e.cursor_position.y
  let term_height := e.terminal_height
  let doc_height := e.document.len
  let row_width := e.document.rowLen y
  match key with
  | .up => (x, y - 1)
  | .down => if y < doc_height then (x, y + 1) else (x, y)
  | .left =>
    if x > 0 then (x - 1, y)
    else if y > 0 then (e.document.rowLen (y - 1), y - 1)
    else (x, y)
  | .right =>
    if x < row_width then (x + 1, y)
    else if y < doc_height then (0, y + 1)
    else (x, y)
  | .pageUp => (x, if y > term_height then y - term_height else 0)
  | .pageDown => (x, if y + term_height < doc_height then y + term_height else doc_height)
  | .home => (0, y)
  | .end_ => (row_width, y)
  | _ => (x, y)

/-- `Editor::move_cursor` (src/editor.rs lines 232-308): dispatch on the key,
then clamp `x` to the target row's width. -/
def Editor.move_cursor (e : Editor) (key : Key) : Editor :=
  let xy := e.move_xy key
  let row_width := e.document.rowLen xy.2
  let x := if xy.1 > row_width then row_width else xy.1
  { e with cursor_position := { x := x, y := xy.2 } }

/-- `Editor::scroll` (src/editor.rs lines 213-230). -/
def Editor.scroll (e : Editor) : Editor :=
  let x := e.cursor_position.x
  let y := e.cursor_position.y
  let width := e.terminal_width
  let height := e.terminal_height
  let off_y :=
    if y < e.offset.y then y
    else if y ≥ e.offset.y + height then y - height + 1
    else e.offset.y
  let off_x :=
    if x < e.offset.x then x
    else if x ≥ e.offset.x + width then x - width + 1
    else e.offset.x
  { e with offset := { x := off_x, y := off_y } }

/-- `Editor::save` (src/editor.rs lines 393-409), with the save-as prompt's
result passed in and the file write modelled on its success path. -/
def Editor.save (e : Editor) (promptResult : Option String) : Editor :=
  if e.document.filename = none then
    match promptResult with
    | none => { e with status_message := "Save aborted." }
    | some name =>
      let d := { e.document with filename := some name }
      { e with document := d.save, status_message := "File saved sucessfully." }
  else
    { e with document := e.document.save, status_message := "File saved sucessfully." }

/-- The tail of `process_keypress` (src/editor.rs lines 204-209), run on
every path except the quit-warning early return: scroll, then reset an
interrupted quit sequence. -/
def Editor.afterKeypress (e : Editor) : Editor :=
  let e := e.scroll
  if e.quit_times < QUIT_TIMES then
    { e with quit_times := QUIT_TIMES, status_message := "" }
  else e

/-- `Editor::process_keypress` (src/editor.rs lines 164-211), as a function
of the pressed key and the prompt oracle used by the save arm. -/
def Editor.process_keypress (e : Editor) (key : Key) (promptResult : Option String) : Editor :=
  match key with
  | .ctrl 'q' =>
    if 0 < e.quit_times ∧ e.document.is_dirty then
      -- `return Ok(())`: skips the scroll and the quit-sequence reset.
      { e with
        status_message := warnMsg e.quit_times
        quit_times := e.quit_times - 1 }
    else
      Editor.afterKeypress { e with should_quit := true }
  | .ctrl 's' => (e.save promptResult).afterKeypress
  | .char c =>
    let e := { e with document := e.document.insert e.cursor_position c }
    (e.move_cursor .right).afterKeypress
  | .delete =>
    Editor.afterKeypress { e with document := e.document.delete e.cursor_position }
  | .backspace =>
    (if e.cursor_position.x > 0 ∨ e.cursor_position.y > 0 then
      let e := e.move_cursor .left
      { e with document := e.document.delete e.cursor_position }
    else e).afterKeypress
  | .up => (e.move_cursor key).afterKeypress
  | .down => (e.move_cursor key).afterKeypress
  | .left => (e.move_cursor key).afterKeypress
  | .right => (e.move_cursor key).afterKeypress
  | .pageUp => (e.move_cursor key).afterKeypress
  | .pageDown => (e.move_cursor key).afterKeypress
  | .home => (e.move_cursor key).afterKeypress
  | .end_ => (e.move_cursor key).afterKeypress
  | _ => e.afterKeypress

/-! ### Helper lemmas about lists -/

theorem set_getD_eq_self {α : Type} (l : List α) (i : Nat) (d : α) (h : i < l.length) :
    l.set i (l[i]?.getD d) = l := by
  induction l generalizing i with
  | nil => simp at h
  | cons a t ih =>
    cases i with
    | zero => simp
    | succ j =>
      simp only [List.getElem?_cons_succ, List.set_cons_succ, List.cons.injEq, true_and]
      exact ih j (by simpa using h)

/-! ### Claims about `Row` -/

/-- Claim C2: for every row and every grapheme index `at_ ≤ row.len`, and
every character, `insert at_ c` followed by `delete at_` restores the row's
original text and original length. -/
theorem row_insert_then_delete_restores (r : Row) (at_ : Nat) (c : Char)
    (hwf : r.len = r.string.length) (h : at_ ≤ r.len) :
    (r.insert at_ c).delete at_ = r := by
  obtain ⟨s, n⟩ := r
  simp only at hwf h
  rcases Nat.lt_or_ge at_ n with hlt | hge
  · have hs : at_ < s.length := hwf ▸ hlt
    have htk : (s.take at_).length = at_ := by
      simp [Nat.min_eq_left (Nat.le_of_lt hs)]
    unfold Row.insert
    rw [if_neg (by omega : ¬ at_ ≥ n)]
    unfold Row.update_len Row.delete
    simp only
    rw [if_neg (by
      simp only [List.length_append, List.length_singleton, htk, List.length_drop]
      omega)]
    simp only [List.append_assoc]
    rw [List.take_left' htk, ← List.append_assoc,
      List.drop_left' (by simp [htk] : (s.take at_ ++ [c]).length = at_ + 1),
      List.take_append_drop]
    simp [Row.update_len, hwf]
  · have hat : at_ = n := Nat.le_antisymm h hge
    subst hat
    unfold Row.insert
    rw [if_pos (Nat.le_refl _)]
    unfold Row.update_len Row.delete
    simp only
    rw [if_neg (by simp [← hwf] : ¬ at_ ≥ (s ++ [c]).length)]
    rw [List.take_left' hwf.symm,
      List.drop_eq_nil_of_le (by simp [← hwf] : (s ++ [c]).length ≤ at_ + 1)]
    simp [Row.update_len, hwf]

/-- Witness for C2 at a concrete row. -/
theorem row_insert_then_delete_restores_witness :
    ((Row.fromStr ['h', 'i']).insert 1 'e').delete 1 = Row.fromStr ['h', 'i'] :=
  row_insert_then_delete_restores (Row.fromStr ['h', 'i']) 1 'e' (by decide) (by decide)

/-- Claim C6: for every row and every grapheme index `at_ ≤ row.len`,
splitting the row at `at_` and appending the returned tail back onto the
truncated row reconstructs the original text and length. -/
theorem row_split_then_append_restores (r : Row) (at_ : Nat)
    (hwf : r.len = r.string.length) (h : at_ ≤ r.len) :
    ((r.split at_).1).append (r.split at_).2 = r := by
  obtain ⟨s, n⟩ := r
  simp only at hwf
  unfold Row.split Row.append Row.fromStr Row.update_len
  simp [List.take_append_drop, hwf]

/-- Witness for C6 at a concrete row. -/
theorem row_split_then_append_restores_witness :
    (((Row.fromStr ['a', 'b', 'c']).split 1).1).append ((Row.fromStr ['a', 'b', 'c']).split 1).2
      = Row.fromStr ['a', 'b', 'c'] :=
  row_split_then_append_restores (Row.fromStr ['a', 'b', 'c']) 1 (by decide) (by decide)

/-! ### Claims about `Document` boundary behavior -/

/-- Claim C9: inserting any character at a position with `y > row count` is
a complete no-op: the document (rows, dirty flag, filename) is returned
unchanged and no error is reported. -/
theorem document_insert_past_end_noop (d : Document) (pos : Position) (c : Char)
    (h : pos.y > d.len) : d.insert pos c = d := by
  unfold Document.insert
  rw [if_pos h]

/-- Witness for C9 at a concrete document. -/
theorem document_insert_past_end_noop_witness :
    (Document.mk [Row.fromStr ['a']] none false).insert (Position.mk 0 2) 'x'
      = Document.mk [Row.fromStr ['a']] none false :=
  document_insert_past_end_noop _ _ 'x' (by decide)

/-- Claim C10: deleting at a position addressing the last row with `x` at or
past that row's length leaves the row sequence (and filename) unchanged but
still sets the dirty flag. -/
theorem document_delete_dirty_without_change (d : Document) (pos : Position)
    (h0 : 0 < d.len) (hy : pos.y = d.len - 1)
    (hx : (d.rows[pos.y]?.getD Row.default).len ≤ pos.x) :
    (d.delete pos).rows = d.rows ∧ (d.delete pos).is_dirty = true ∧
      (d.delete pos).filename = d.filename := by
  have h0' : 0 < d.rows.length := h0
  have hy' : pos.y = d.rows.length - 1 := hy
  unfold Document.delete
  rw [if_neg (show ¬ pos.y ≥ d.len from by
    have hd : d.len = d.rows.length := rfl
    omega)]
  simp only
  rw [if_neg ?hneg]
  case hneg =>
    rintro ⟨-, h2⟩
    have h2' : pos.y < d.rows.length - 1 := h2
    omega
  unfold Row.delete
  rw [if_pos (show pos.x ≥ _ from hx)]
  refine ⟨?_, rfl, rfl⟩
  simp only
  exact set_getD_eq_self _ _ _ (by omega)

/-- Witness for C10 at a concrete document. -/
theorem document_delete_dirty_without_change_witness :
    ((Document.mk [Row.fromStr ['a', 'b']] none false).delete (Position.mk 2 0)).rows
        = [Row.fromStr ['a', 'b']] ∧
      ((Document.mk [Row.fromStr ['a', 'b']] none false).delete (Position.mk 2 0)).is_dirty
        = true ∧
      ((Document.mk [Row.fromStr ['a', 'b']] none false).delete (Position.mk 2 0)).filename
        = none :=
  document_delete_dirty_without_change _ _ (by decide) (by decide) (by decide)

/-! ### Claims about cursor motion -/

/-- A sample document and editor used by concrete witnesses. -/
def sampleDoc : Document :=
  { rows := [Row.fromStr ['a', 'b'], Row.fromStr ['c']], filename := none, is_dirty := false }

def sampleEditor (d : Document) (cursor : Position) : Editor :=
  { should_quit := false
    terminal_width := 10
    terminal_height := 5
    document := d
    offset := { x := 0, y := 0 }
    cursor_position := cursor
    status_message := ""
    quit_times := 3 }

/-- Claim C5: for every editor state and every motion key, the cursor
position after `move_cursor` satisfies `x ≤ rowLen y` for the resulting `y`
(`rowLen` is 0 when no row exists there): motion never leaves the cursor
past the target row's end. -/
theorem move_cursor_never_past_row_end (e : Editor) :
    ∀ k ∈ [Key.up, Key.down, Key.left, Key.right,
           Key.pageUp, Key.pageDown, Key.home, Key.end_],
      (e.move_cursor k).cursor_position.x
        ≤ e.document.rowLen (e.move_cursor k).cursor_position.y := by
  intro k _
  simp only [Editor.move_cursor]
  split <;> omega

/-- Witness for C5 at a concrete editor and key. -/
theorem move_cursor_never_past_row_end_witness :
    ((sampleEditor sampleDoc (Position.mk 2 0)).move_cursor Key.down).cursor_position.x
      ≤ sampleDoc.rowLen
          (((sampleEditor sampleDoc (Position.mk 2 0)).move_cursor Key.down).cursor_position.y) :=
  move_cursor_never_past_row_end (sampleEditor sampleDoc (Position.mk 2 0)) Key.down (by decide)

/-- Claim C8: Right pressed with `x` at the current row's length and `y`
below the row count moves to the start of the next row; Left pressed at
`x = 0` with `y > 0` moves to the end of the previous row (`rowLen` giving
0 when that row is absent). -/
theorem move_cursor_line_wrap (e : Editor) :
    (e.cursor_position.x = e.document.rowLen e.cursor_position.y →
      e.cursor_position.y < e.document.len →
      (e.move_cursor Key.right).cursor_position = Position.mk 0 (e.cursor_position.y + 1))
    ∧ (e.cursor_position.x = 0 → 0 < e.cursor_position.y →
      (e.move_cursor Key.left).cursor_position
        = Position.mk (e.document.rowLen (e.cursor_position.y - 1)) (e.cursor_position.y - 1)) := by
  constructor
  · intro hx hy
    simp only [Editor.move_cursor, Editor.move_xy]
    rw [if_neg (show ¬ e.cursor_position.x < e.document.rowLen e.cursor_position.y from by omega),
      if_pos hy]
    simp
  · intro hx hy
    simp only [Editor.move_cursor, Editor.move_xy]
    rw [if_neg (show ¬ 0 < e.cursor_position.x from by omega), if_pos hy]
    simp

/-- Witness for C8: both wrap rules on the sample two-row document. -/
theorem move_cursor_line_wrap_witness :
    ((sampleEditor sampleDoc (Position.mk 2 0)).move_cursor Key.right).cursor_position
        = Position.mk 0 1
    ∧ ((sampleEditor sampleDoc (Position.mk 0 1)).move_cursor Key.left).cursor_position
        = Position.mk 2 0 :=
  ⟨(move_cursor_line_wrap (sampleEditor sampleDoc (Position.mk 2 0))).1 (by decide) (by decide),
   (move_cursor_line_wrap (sampleEditor sampleDoc (Position.mk 0 1))).2 (by decide) (by decide)⟩

/-! ### Claims about row merging and splitting in `Document` -/

theorem set_eraseIdx_succ_eq {α : Type} (l : List α) (y : Nat) (v : α)
    (h : y + 1 < l.length) :
    (l.eraseIdx (y + 1)).set y v = l.take y ++ v :: l.drop (y + 2) := by
  induction l generalizing y with
  | nil => simp at h
  | cons a t ih =>
    cases y with
    | zero =>
      cases t with
      | nil => simp at h
      | cons b t' => simp [List.eraseIdx]
    | succ y' =>
      simp only [List.eraseIdx, List.set_cons_succ, List.take_succ_cons,
        List.drop_succ_cons, List.cons_append, List.cons.injEq, true_and]
      exact ih y' (by simpa using h)

theorem insertIdx_set_succ_eq {α : Type} (l : List α) (y : Nat) (v w : α)
    (h : y < l.length) :
    List.insertIdx (y + 1) w (l.set y v) = l.take y ++ v :: w :: l.drop (y + 1) := by
  induction l generalizing y with
  | nil => simp at h
  | cons a t ih =>
    cases y with
    | zero => simp [List.insertIdx_succ_cons, List.insertIdx_zero]
    | succ y' =>
      simp only [List.set_cons_succ, List.insertIdx_succ_cons, List.take_succ_cons,
        List.drop_succ_cons, List.cons_append, List.cons.injEq, true_and]
      exact ih y' (by simpa using h)

/-- Claim C3: deleting at the end of a non-last row merges it with the
following row: that row is removed from the sequence, its text is appended
to the addressed row, the row count drops by exactly 1, and processing the
delete-forward key leaves the editor's cursor unchanged. -/
theorem document_delete_at_row_end_merges (d : Document) (pos : Position)
    (hy : pos.y + 1 < d.len)
    (hx : pos.x = (d.rows[pos.y]?.getD Row.default).len) :
    (d.delete pos).rows
        = d.rows.take pos.y
            ++ (d.rows[pos.y]?.getD Row.default).append (d.rows[pos.y + 1]?.getD Row.default)
              :: d.rows.drop (pos.y + 2)
      ∧ (d.delete pos).len = d.len - 1
      ∧ ((d.delete pos).rows[pos.y]?.getD Row.default).string
          = (d.rows[pos.y]?.getD Row.default).string
              ++ (d.rows[pos.y + 1]?.getD Row.default).string
      ∧ ∀ (e : Editor) (pr : Option String), e.cursor_position = pos →
          (e.process_keypress Key.delete pr).cursor_position = pos := by
  have hlen : d.len = d.rows.length := rfl
  have hy' : pos.y + 1 < d.rows.length := hy
  have hr : (d.delete pos).rows
      = d.rows.take pos.y
          ++ (d.rows[pos.y]?.getD Row.default).append (d.rows[pos.y + 1]?.getD Row.default)
            :: d.rows.drop (pos.y + 2) := by
    simp only [Document.delete]
    split_ifs with h1 h2
    · exact absurd h1 (by omega)
    · exact set_eraseIdx_succ_eq _ _ _ hy'
    · exact absurd ⟨hx, show pos.y < d.rows.length - 1 from by omega⟩ h2
  refine ⟨hr, ?_, ?_, ?_⟩
  · show (d.delete pos).rows.length = d.rows.length - 1
    rw [hr]
    simp only [List.length_append, List.length_take, List.length_cons, List.length_drop]
    omega
  · rw [hr, List.getElem?_append_right (by simp only [List.length_take]; omega)]
    have : pos.y - (d.rows.take pos.y).length = 0 := by
      simp only [List.length_take]
      omega
    rw [this]
    simp [Row.append, Row.update_len]
  · intro e pr he
    simp only [Editor.process_keypress, Editor.afterKeypress, Editor.scroll]
    split_ifs <;> simpa using he

/-- Witness for C3: the spec's example, documents `["ab", "cd"]` with the
cursor at the end of the first row. -/
theorem document_delete_at_row_end_merges_witness :
    ((Document.mk [Row.fromStr ['a', 'b'], Row.fromStr ['c', 'd']] none false).delete
          (Position.mk 2 0)).rows
        = [Row.fromStr ['a', 'b'], Row.fromStr ['c', 'd']].take 0
            ++ ((([Row.fromStr ['a', 'b'], Row.fromStr ['c', 'd']])[0]?.getD Row.default).append
                (([Row.fromStr ['a', 'b'], Row.fromStr ['c', 'd']])[1]?.getD Row.default))
              :: [Row.fromStr ['a', 'b'], Row.fromStr ['c', 'd']].drop 2
      ∧ ((Document.mk [Row.fromStr ['a', 'b'], Row.fromStr ['c', 'd']] none false).delete
            (Position.mk 2 0)).len
          = (Document.mk [Row.fromStr ['a', 'b'], Row.fromStr ['c', 'd']] none false).len - 1
      ∧ (((Document.mk [Row.fromStr ['a', 'b'], Row.fromStr ['c', 'd']] none false).delete
              (Position.mk 2 0)).rows[0]?.getD Row.default).string
          = (([Row.fromStr ['a', 'b'], Row.fromStr ['c', 'd']])[0]?.getD Row.default).string
              ++ (([Row.fromStr ['a', 'b'], Row.fromStr ['c', 'd']])[1]?.getD Row.default).string
      ∧ ∀ (e : Editor) (pr : Option String), e.cursor_position = Position.mk 2 0 →
          (e.process_keypress Key.delete pr).cursor_position = Position.mk 2 0 :=
  document_delete_at_row_end_merges
    (Document.mk [Row.fromStr ['a', 'b'], Row.fromStr ['c', 'd']] none false)
    (Position.mk 2 0) (by decide) (by decide)

theorem insert_newline_preserves_dirty (d : Document) (pos : Position) :
    (d.insert_newline pos).is_dirty = d.is_dirty := by
  simp only [Document.insert_newline]
  split_ifs <;> rfl

/-- Claim C4: inserting a newline at `y = row_count` appends exactly one
empty row; at `y < row_count` it splits the addressed row at `x` via
`Row.split`, placing the tail immediately after the original; the newline
path itself never touches the dirty flag, which the enclosing `insert` has
already set before this path runs. -/
theorem document_insert_newline_policy (d : Document) (pos : Position) :
    (pos.y = d.len → (d.insert_newline pos).rows = d.rows ++ [Row.default])
    ∧ (pos.y < d.len →
        (d.insert_newline pos).rows
          = d.rows.take pos.y
              ++ ((d.rows[pos.y]?.getD Row.default).split pos.x).1
                :: ((d.rows[pos.y]?.getD Row.default).split pos.x).2
                :: d.rows.drop (pos.y + 1))
    ∧ (d.insert_newline pos).is_dirty = d.is_dirty
    ∧ (pos.y ≤ d.len →
        (d.insert pos '\n').is_dirty = true
          ∧ (d.insert pos '\n').rows = (d.insert_newline pos).rows) := by
  have hlen : d.len = d.rows.length := rfl
  refine ⟨?_, ?_, ?_, ?_⟩
  · intro h
    simp only [Document.insert_newline]
    rw [if_pos h]
  · intro h
    simp only [Document.insert_newline]
    rw [if_neg (by omega)]
    exact insertIdx_set_succ_eq _ _ _ _ (by omega)
  · exact insert_newline_preserves_dirty d pos
  · intro h
    have hins : d.insert pos '\n'
        = ({ d with is_dirty := true } : Document).insert_newline pos := by
      unfold Document.insert
      rw [if_neg (show ¬ pos.y > d.len from by omega)]
      simp
    rw [hins]
    constructor
    · rw [insert_newline_preserves_dirty]
    · simp only [Document.insert_newline, Document.len]
      split_ifs <;> rfl

/-- Witness for C4: on the one-row document `["x"]`, a newline at the end
appends an empty row (giving `["x", ""]`), a newline inside row 0 splits it,
and both routes leave dirty handling to the enclosing insert. -/
theorem document_insert_newline_policy_witness :
    (((Document.mk [Row.fromStr ['x']] none false).insert_newline (Position.mk 0 1)).rows
        = [Row.fromStr ['x']] ++ [Row.default])
    ∧ (((Document.mk [Row.fromStr ['x']] none false).insert_newline (Position.mk 1 0)).rows
        = [Row.fromStr ['x']].take 0
            ++ ((([Row.fromStr ['x']])[0]?.getD Row.default).split 1).1
              :: ((([Row.fromStr ['x']])[0]?.getD Row.default).split 1).2
              :: [Row.fromStr ['x']].drop 1)
    ∧ (((Document.mk [Row.fromStr ['x']] none false).insert (Position.mk 1 0) '\n').is_dirty
          = true
        ∧ ((Document.mk [Row.fromStr ['x']] none false).insert (Position.mk 1 0) '\n').rows
            = ((Document.mk [Row.fromStr ['x']] none false).insert_newline
                (Position.mk 1 0)).rows) :=
  ⟨(document_insert_newline_policy (Document.mk [Row.fromStr ['x']] none false)
      (Position.mk 0 1)).1 (by decide),
   (document_insert_newline_policy (Document.mk [Row.fromStr ['x']] none false)
      (Position.mk 1 0)).2.1 (by decide),
   (document_insert_newline_policy (Document.mk [Row.fromStr ['x']] none false)
      (Position.mk 1 0)).2.2.2 (by decide)⟩

/-! ### The quit-confirmation counter -/

/-- One press of the quit key (`Ctrl-Q`); the prompt oracle is irrelevant
for this key. -/
def pressQuit (e : Editor) : Editor :=
  e.process_keypress (Key.ctrl 'q') none

theorem pressQuit_warn (e : Editor) (h1 : 0 < e.quit_times)
    (h2 : e.document.is_dirty = true) :
    pressQuit e
      = { e with status_message := warnMsg e.quit_times, quit_times := e.quit_times - 1 } := by
  unfold pressQuit
  simp only [Editor.process_keypress]
  rw [if_pos ⟨h1, h2⟩]

theorem afterKeypress_should_quit (e : Editor) :
    e.afterKeypress.should_quit = e.should_quit := by
  simp only [Editor.afterKeypress, Editor.scroll]
  split_ifs <;> rfl

theorem afterKeypress_reset (e : Editor) (h : e.quit_times < QUIT_TIMES) :
    e.afterKeypress.quit_times = QUIT_TIMES ∧ e.afterKeypress.status_message = "" := by
  simp only [Editor.afterKeypress, Editor.scroll]
  rw [if_pos h]
  exact ⟨rfl, rfl⟩

theorem pressQuit_quits (e : Editor) (h : e.quit_times = 0) :
    (pressQuit e).should_quit = true := by
  unfold pressQuit
  simp only [Editor.process_keypress]
  rw [if_neg (by simp [h])]
  rw [afterKeypress_should_quit]

theorem move_cursor_quit_times (e : Editor) (k : Key) :
    (e.move_cursor k).quit_times = e.quit_times := rfl

/-- A concrete dirty one-row editor with the quit counter at its threshold. -/
def dirtyEditor : Editor :=
  sampleEditor { rows := [Row.fromStr ['a']], filename := none, is_dirty := true }
    (Position.mk 0 0)

/-- Counterexample to claim C1 as stated: starting from a dirty document
with the counter at 3, the 3rd consecutive quit press drives the counter to
0 but does not end the session — `should_quit` is still false. -/
theorem quit_third_press_does_not_quit :
    (pressQuit (pressQuit (pressQuit dirtyEditor))).quit_times = 0
      ∧ (pressQuit (pressQuit (pressQuit dirtyEditor))).should_quit = false := by
  decide

/-- Claim C1 (amended): starting with counter 3 on a dirty document, the
1st, 2nd and 3rd quit presses each leave the session open with a warning
message, taking the counter to 2, 1 and 0; any motion key in between resets
the counter to 3 and clears the message; the 4th consecutive quit press
(pressed with the counter already at 0) ends the session. -/
theorem quit_requires_four_presses (e : Editor)
    (hd : e.document.is_dirty = true) (hq : e.quit_times = 3)
    (hs : e.should_quit = false) :
    ((pressQuit e).should_quit = false ∧ (pressQuit e).quit_times = 2
        ∧ (pressQuit e).status_message = warnMsg 3)
    ∧ ((pressQuit (pressQuit e)).should_quit = false
        ∧ (pressQuit (pressQuit e)).quit_times = 1
        ∧ (pressQuit (pressQuit e)).status_message = warnMsg 2)
    ∧ (∀ k ∈ [Key.up, Key.down, Key.left, Key.right, Key.pageUp, Key.pageDown,
          Key.home, Key.end_],
        ((pressQuit e).process_keypress k none).quit_times = QUIT_TIMES
          ∧ ((pressQuit e).process_keypress k none).status_message = "")
    ∧ ((pressQuit (pressQuit (pressQuit e))).should_quit = false
        ∧ (pressQuit (pressQuit (pressQuit e))).quit_times = 0
        ∧ (pressQuit (pressQuit (pressQuit e))).status_message = warnMsg 1)
    ∧ (pressQuit (pressQuit (pressQuit (pressQuit e)))).should_quit = true := by
  have h1 : pressQuit e = { e with status_message := warnMsg 3, quit_times := 2 } := by
    rw [pressQuit_warn e (by omega) hd, hq]
  have h2 : pressQuit (pressQuit e)
      = { e with status_message := warnMsg 2, quit_times := 1 } := by
    rw [h1]
    exact pressQuit_warn { e with status_message := warnMsg 3, quit_times := 2 }
      (Nat.succ_pos 1) hd
  have h3 : pressQuit (pressQuit (pressQuit e))
      = { e with status_message := warnMsg 1, quit_times := 0 } := by
    rw [h2]
    exact pressQuit_warn { e with status_message := warnMsg 2, quit_times := 1 }
      (Nat.succ_pos 0) hd
  refine ⟨?_, ?_, ?_, ?_, ?_⟩
  · rw [h1]
    exact ⟨hs, rfl, rfl⟩
  · rw [h2]
    exact ⟨hs, rfl, rfl⟩
  · intro k hk
    rw [h1]
    fin_cases hk <;>
      · simp only [Editor.process_keypress]
        exact afterKeypress_reset _ (by simp [move_cursor_quit_times, QUIT_TIMES])
  · rw [h3]
    exact ⟨hs, rfl, rfl⟩
  · rw [h3]
    exact pressQuit_quits _ rfl

/-- Witness for the amended C1 on the concrete dirty editor. -/
theorem quit_requires_four_presses_witness :
    (pressQuit dirtyEditor).quit_times = 2
      ∧ (pressQuit (pressQuit (pressQuit (pressQuit dirtyEditor)))).should_quit = true :=
  ⟨(quit_requires_four_presses dirtyEditor rfl rfl rfl).1.2.1,
   (quit_requires_four_presses dirtyEditor rfl rfl rfl).2.2.2.2⟩

/-! ### Opening and saving: the round-trip of row content -/

theorem splitInclusiveNL_segment (s : List Char) :
    ∀ seg ∈ splitInclusiveNL s, seg ≠ [] ∧ '\n' ∉ seg.dropLast := by
  induction s with
  | nil => simp [splitInclusiveNL]
  | cons c rest ih =>
    simp only [splitInclusiveNL]
    split_ifs with hc
    · intro seg hseg
      rcases List.mem_cons.1 hseg with h | h
      · subst h
        exact ⟨by simp, by simp⟩
      · exact ih seg h
    · cases hsp : splitInclusiveNL rest with
      | nil =>
        intro seg hseg
        rcases List.mem_singleton.1 hseg with rfl
        exact ⟨by simp, by simp⟩
      | cons seg0 segs =>
        intro seg hseg
        rcases List.mem_cons.1 hseg with h | h
        · subst h
          have h0 := ih seg0 (by rw [hsp]; exact List.mem_cons_self _ _)
          refine ⟨by simp, ?_⟩
          rw [List.dropLast_cons_of_ne_nil h0.1]
          intro hmem
          rcases List.mem_cons.1 hmem with h' | h'
          · exact hc h'.symm
          · exact h0.2 h'
        · exact ih seg (by rw [hsp]; exact List.mem_cons_of_mem _ h)

theorem lineMap_no_newline (seg : List Char) (h1 : seg ≠ [])
    (h2 : '\n' ∉ seg.dropLast) : '\n' ∉ lineMap seg := by
  by_cases hl : seg.getLast? = some '\n'
  · have hlm : lineMap seg
        = if seg.dropLast.getLast? = some '\r' then seg.dropLast.dropLast
          else seg.dropLast := by
      unfold lineMap
      rw [if_pos hl]
    rw [hlm]
    by_cases hr : seg.dropLast.getLast? = some '\r'
    · rw [if_pos hr]
      exact fun hmem => h2 ((List.dropLast_sublist seg.dropLast).subset hmem)
    · rw [if_neg hr]
      exact h2
  · have hlm : lineMap seg = seg := by
      unfold lineMap
      rw [if_neg hl]
    rw [hlm]
    intro hmem
    rw [← List.dropLast_append_getLast h1] at hmem
    rcases List.mem_append.1 hmem with h' | h'
    · exact h2 h'
    · exact hl ((List.getLast?_eq_getLast seg h1).trans
        (by rw [← List.mem_singleton.1 h']))

theorem splitInclusiveNL_append_nl (r t : List Char) (h : '\n' ∉ r) :
    splitInclusiveNL (r ++ '\n' :: t) = (r ++ ['\n']) :: splitInclusiveNL t := by
  induction r with
  | nil =>
    simp [splitInclusiveNL]
  | cons c r' ih =>
    have hc : ¬ c = '\n' := fun hcc => h (hcc ▸ List.mem_cons_self _ _)
    simp only [List.cons_append, splitInclusiveNL, List.append_eq]
    rw [if_neg hc, ih (fun hm => h (List.mem_cons_of_mem _ hm))]

theorem lineMap_append_nl (r : List Char) (h : r.getLast? ≠ some '\r') :
    lineMap (r ++ ['\n']) = r := by
  unfold lineMap
  rw [if_pos (List.getLast?_concat r)]
  show (if (r ++ ['\n']).dropLast.getLast? = some '\r' then _ else _) = r
  rw [List.dropLast_concat, if_neg h]

theorem linesOf_join_rows (rows : List (List Char))
    (h : ∀ r ∈ rows, '\n' ∉ r ∧ r.getLast? ≠ some '\r') :
    linesOf ((rows.map (fun r => r ++ ['\n'])).flatten) = rows := by
  induction rows with
  | nil => rfl
  | cons r rest ih =>
    have hr := h r (List.mem_cons_self _ _)
    unfold linesOf
    simp only [List.map_cons, List.flatten_cons]
    rw [show (r ++ ['\n']) ++ (rest.map (fun r => r ++ ['\n'])).flatten
        = r ++ '\n' :: (rest.map (fun r => r ++ ['\n'])).flatten from by
      rw [List.append_assoc, List.singleton_append]]
    rw [splitInclusiveNL_append_nl _ _ hr.1]
    simp only [List.map_cons]
    rw [lineMap_append_nl r hr.2]
    exact congrArg (r :: ·) (ih (fun x hx => h x (List.mem_cons_of_mem _ hx)))

theorem linesOf_no_newline (s : List Char) : ∀ r ∈ linesOf s, '\n' ∉ r := by
  intro r hr
  unfold linesOf at hr
  rcases List.mem_map.1 hr with ⟨seg, hseg, rfl⟩
  have hs := splitInclusiveNL_segment s seg hseg
  exact lineMap_no_newline seg hs.1 hs.2

/-- Claim C7 (amended): writing a string to a file, opening it as a
document, and saving round-trips the per-row text (the saved file's rows
equal the original string's rows), for every string none of whose rows ends
in a carriage return.  (Without that restriction the claim fails: `lines`
strips a row-final carriage return on reopening the saved file.) -/
theorem open_save_roundtrip (name : String) (S : List Char)
    (h : ∀ r ∈ linesOf S, r.getLast? ≠ some '\r') :
    linesOf (Document.saveContent (Document.openFrom name S)) = linesOf S := by
  have hsc : Document.saveContent (Document.openFrom name S)
      = ((linesOf S).map (fun r => r ++ ['\n'])).flatten := by
    unfold Document.saveContent Document.openFrom
    rw [List.map_map]
    refine congrArg List.flatten (congrArg (fun f => List.map f (linesOf S)) ?_)
    funext r
    simp [Function.comp, Row.fromStr, Row.update_len]
  rw [hsc]
  exact linesOf_join_rows (linesOf S)
    (fun r hr => ⟨linesOf_no_newline S r hr, h r hr⟩)

/-- Counterexample to claim C7 as stated: the two-character string
"a" + CR opens to the single row "a" + CR, but the saved file (that row
plus a newline) reopens to the single row "a", because the carriage
return before the newline is stripped: row content does not round-trip. -/
theorem open_save_roundtrip_cr_counterexample :
    linesOf (Document.saveContent (Document.openFrom "f" ['a', '\r']))
      ≠ linesOf ['a', '\r'] := by
  decide

/-- Witness for the amended C7 on a concrete two-line string. -/
theorem open_save_roundtrip_witness :
    linesOf (Document.saveContent (Document.openFrom "f" ['h', 'i', '\n', 'y', 'o']))
      = linesOf ['h', 'i', '\n', 'y', 'o'] :=
  open_save_roundtrip "f" ['h', 'i', '\n', 'y', 'o'] (by decide)
